import Mathlib

/-!
Shallow embedding of `src/cpp/session/modules/clang/RCompilationDatabase.cpp`
(the compilation argument resolution engine of the RStudio clang module).

Conventions of the embedding:

* C++ `std::string` values are modelled as `List Char` (named `Str` below);
  `FilePath` values are modelled as their absolute path string, with the
  path accessors (`filename()`, `stem()`, `parent()`, `childPath()`,
  `extensionLowerCase()`) implemented as string functions.
* The concrete boost regexes of the source are hand-compiled to executable
  scanners with the same matching semantics (leftmost, non-overlapping,
  first-alternative preference, greedy/maximal character classes).
* External collaborators (project context, R functions, process execution,
  libclang, the filesystem) are modelled by a `World` record supplying
  their observable results; the filesystem is the list of existing paths.
* The mutable members of `RCompilationDatabase` form the `DB` record;
  member functions become `World → DB → ...` functions that additionally
  return the number of external build-tool invocations they perform
  (`R CMD SHLIB` / `Rcpp::sourceCpp` process launches, attempted launches
  included), so that cache-hit properties about process spawning can be
  stated.
-/

namespace RCompDB

/-- Strings of the C++ source, modelled as lists of characters. -/
abbrev Str := List Char

/-- The double-quote character (written via its code point so that string
literals in this file stay quote-free). -/
def qc : Char := Char.ofNat 34

/-- Whitespace classification used by the boost string algorithms of the
source (`std::isspace` in the default locale): space, tab, newline,
vertical tab, form feed, carriage return. -/
def isWsChar (c : Char) : Bool :=
  c == ' ' || c == '\t' || c == '\n' || c == '\x0b' || c == '\x0c' || c == '\r'

/-- `leadsWith p s` holds when pattern `p` is an initial segment of `s`
(models `boost::algorithm::starts_with` and anchored regex literals). -/
def leadsWith : Str → Str → Bool
  | [], _ => true
  | _ :: _, [] => false
  | p :: ps, c :: cs => p == c && leadsWith ps cs

/-- `containsSub pat s` models `s.find(pat) != std::string::npos`. -/
def containsSub (pat : Str) : Str → Bool
  | [] => leadsWith pat []
  | c :: cs => leadsWith pat (c :: cs) || containsSub pat cs

/-- Models `boost::algorithm::replace_first(s, pat, rep)`: replace the
leftmost occurrence of `pat` (if any) by `rep`. -/
def replaceFirst (pat rep : Str) : Str → Str
  | [] => if leadsWith pat [] then rep else []
  | c :: cs =>
      if leadsWith pat (c :: cs) then rep ++ (c :: cs).drop pat.length
      else c :: replaceFirst pat rep cs

/-- Collapse every interior whitespace run of a string with no leading
whitespace to a single space and drop a trailing whitespace run
(helper for `trimAll`). -/
def squeezeWs : Str → Str
  | [] => []
  | [c] => if isWsChar c then [] else [c]
  | c :: d :: rest =>
      if isWsChar c then
        if isWsChar d then squeezeWs (d :: rest)
        else ' ' :: d :: squeezeWs rest
      else c :: squeezeWs (d :: rest)

/-- Models `boost::algorithm::trim_all`: drop leading and trailing
whitespace and compress every interior whitespace run to one space. -/
def trimAll (s : Str) : Str := squeezeWs (s.dropWhile isWsChar)

/-- Models `boost::algorithm::replace_all(arg, quote, empty)`: remove every
double-quote character. -/
def removeQuotes (s : Str) : Str := s.filter (fun c => c != qc)

/-!
## Compile-line parser

`extractCompileArgs` (source lines 105-123) finds all matches of the boost
regex

  `[ \t]-(?:[IDif]|std)(?:<dq>[^<dq>]+<dq>|[^ ]+)`

(where `<dq>` is the double-quote character) in a build-log line, then
applies `trim_all` and removes quotes from each matched token.
-/

/-- The flag-letter alternation `(?:[IDif]|std)` of the compile-arg regex:
given the text following `-`, return the matched class characters and the
remainder, or `none`. The single-letter class is tried before the `std`
alternative, as in the regex; the alternatives cannot both apply, so no
backtracking between them is possible. -/
def matchFlag (s : Str) : Option (Str × Str) :=
  match s with
  | c :: r =>
      if c == 'I' || c == 'D' || c == 'i' || c == 'f' then some ([c], r)
      else if leadsWith "std".data s then some ("std".data, s.drop 3)
      else none
  | [] => none

/-- The run `[^ ]+`: a maximal nonempty run of non-space characters. -/
def nonspaceRun (s : Str) : Option (Str × Str) :=
  let run := s.takeWhile (fun d => d != ' ')
  if run.isEmpty then none else some (run, s.dropWhile (fun d => d != ' '))

/-- The tail alternation `(?:<dq>[^<dq>]+<dq>|[^ ]+)` of the compile-arg
regex.  The quoted alternative is tried first; as its inner class is
maximal-munch up to the first closing quote there is no further
backtracking, and on failure the plain run alternative applies. -/
def matchTail (s : Str) : Option (Str × Str) :=
  match s with
  | c :: r =>
      if c == qc then
        let inner := r.takeWhile (fun d => d != qc)
        let rest := r.dropWhile (fun d => d != qc)
        match rest, inner with
        | d :: r2, _ :: _ => some ((c :: inner) ++ [d], r2)
        | _, _ => nonspaceRun s
      else nonspaceRun s
  | [] => none

/-- Try to match the whole compile-arg regex at the current position:
a blank (`[ \t]`), a dash, the flag alternation, then the tail.  On
success returns the match as `(blank, classChars, tail)` together with the
text after the match. -/
def tryMatchAt (s : Str) : Option ((Char × Str × Str) × Str) :=
  match s with
  | b :: c :: r0 =>
      if (b == ' ' || b == '\t') && c == '-' then
        match matchFlag r0 with
        | some (cls, r1) =>
            match matchTail r1 with
            | some (tl, r2) => some ((b, cls, tl), r2)
            | none => none
        | none => none
      else none
  | _ => none

/-- Scan a line for all leftmost, non-overlapping matches of the
compile-arg regex (the semantics of `boost::sregex_token_iterator`):
on a failed match the scan advances one character, on a successful match
it resumes after the match.  The fuel argument bounds the recursion; each
step consumes at least one character, so `fuel = length` (see `scanLine`)
never runs out. -/
def scanLineF : Nat → Str → List (Char × Str × Str)
  | 0, _ => []
  | _ + 1, [] => []
  | n + 1, c :: cs =>
      match tryMatchAt (c :: cs) with
      | some (m, rest) => m :: scanLineF n rest
      | none => scanLineF n cs

/-- All regex matches of the compile-arg regex in a line, in order. -/
def scanLine (line : Str) : List (Char × Str × Str) := scanLineF line.length line

/-- The post-processing applied to each matched token in
`extractCompileArgs`: `trim_all` then removal of all quote characters.
The matched token is exactly `blank ++ dash ++ classChars ++ tail`. -/
def renderArg (m : Char × Str × Str) : Str :=
  removeQuotes (trimAll (m.1 :: '-' :: (m.2.1 ++ m.2.2)))

/-- `extractCompileArgs` (source lines 105-123): the processed regex
matches of a build-log line, in match order. -/
def extractCompileArgs (line : Str) : List Str := (scanLine line).map renderArg

/-- Models `boost::algorithm::split(lines, results, is_any_of(CRLF))`:
split at every carriage-return or newline character (adjacent separators
produce empty segments, as in boost). -/
def splitLinesRN : Str → List Str
  | [] => [[]]
  | c :: cs =>
      if c == '\r' || c == '\n' then [] :: splitLinesRN cs
      else
        match splitLinesRN cs with
        | [] => [[c]]
        | l :: ls => (c :: l) :: ls

/-!
## FilePath accessors

`core::FilePath` is modelled by its absolute path string.
-/

/-- `FilePath::filename()`: the component after the last slash. -/
def fpFilename (p : Str) : Str := (p.reverse.takeWhile (fun c => c != '/')).reverse

/-- `FilePath::parent()`: the path with its last component removed. -/
def fpParent (p : Str) : Str := ((p.reverse.dropWhile (fun c => c != '/')).drop 1).reverse

/-- `FilePath::childPath(rel)`: append a relative path after a slash. -/
def childPath (p rel : Str) : Str := p ++ '/' :: rel

/-- `FilePath::stem()`: the filename without its last extension (boost
keeps a filename whose only dot is the leading one intact). -/
def fpStem (p : Str) : Str :=
  let f := fpFilename p
  if f.contains '.' then
    let pre := ((f.reverse.dropWhile (fun c => c != '.')).drop 1).reverse
    if pre.isEmpty then f else pre
  else f

/-- `FilePath::extensionLowerCase()`: the last extension of the filename,
dot included, in lower case (empty when there is no dot or the only dot
is the leading one, as in boost). -/
def fpExtensionLowerCase (p : Str) : Str :=
  let f := fpFilename p
  if f.contains '.' then
    let post := f.reverse.takeWhile (fun c => c != '.')
    if post.length + 1 == f.length then [] else ('.' :: post.reverse).map Char.toLower
  else []

/-- The compile-invocation signature searched for by
`parseCompilationResults` (source line 194):
`"-c " + srcFile.filename() + " -o " + srcFile.stem()`. -/
def compileSignature (srcFile : Str) : Str :=
  "-c ".data ++ fpFilename srcFile ++ " -o ".data ++ fpStem srcFile

/-- The line loop of `parseCompilationResults` (source lines 195-202):
append the extracted args of every line containing the signature. -/
def pcrGo (compile : Str) : List Str → List Str
  | [] => []
  | l :: ls => (if containsSub compile l then extractCompileArgs l else []) ++ pcrGo compile ls

/-- `parseCompilationResults` (source lines 181-206). -/
def parseCompilationResults (srcFile : Str) (results : Str) : List Str :=
  pcrGo (compileSignature srcFile) (splitLinesRN results)

/-- `extractStdArg` (source lines 125-134): the first argument starting
with `-std=`, or the empty string. -/
def extractStdArg : List Str → Str
  | [] => []
  | a :: rest => if leadsWith "-std=".data a then a else extractStdArg rest

/-!
## Dependency fingerprint extractor (`sourceCppHash`, source lines 57-103)

The three boost regexes of `sourceCppHash` are hand-compiled:

* the gating regex `#include\s+<Rcpp11` (and the fallback `#include\s+<Rcpp`)
  is an unanchored search: `containsIncludeOf`;
* the dependency-attribute regex is line-anchored (`^ ... $`, boost default
  multiline behaviour); the content is split at newlines and each line is
  tested for a full match, whose token is the whole line.
-/

/-- After the literal `#include`: at least one whitespace character, then
the target (`\s+` is maximal-munch; the targets start with `<`, which is
not whitespace, so maximal munch is exact). -/
def includeTail (target : Str) : Str → Bool
  | [] => false
  | c :: cs => isWsChar c && leadsWith target (cs.dropWhile isWsChar)

/-- Unanchored search for `#include\s+` followed by `target`. -/
def containsIncludeOf (target : Str) : Str → Bool
  | [] => false
  | c :: cs =>
      (leadsWith "#include".data (c :: cs) && includeTail target ((c :: cs).drop 8))
        || containsIncludeOf target cs

/-- `\w`: alphanumeric or underscore (boost default locale). -/
def isWordChar (c : Char) : Bool := c.isAlphanum || c == '_'

/-- `\]\]\s*$`: the closing brackets followed only by whitespace up to the
end of the line. -/
def closeBrackets (s : Str) : Bool := leadsWith "]]".data s && (s.drop 2).all isWsChar

/-- `.*?\)` followed by `\]\]\s*$`: some closing parenthesis whose suffix
closes the attribute (the lazy quantifier takes the first such position;
for a full-line Boolean match existence is equivalent). -/
def parenClose : Str → Bool
  | [] => false
  | c :: cs => (c == ')' && closeBrackets cs) || parenClose cs

/-- The optional argument group `(\(.*?\))?` followed by `\]\]\s*$`. -/
def attrAfterWord (s : Str) : Bool :=
  match s with
  | '(' :: r => parenClose r
  | _ => closeBrackets s

/-- Full-line match of the dependency-attribute regex
`^\s*//\s*\[\[Rcpp::(\w+)(\(.*?\))?\]\]\s*$` (source lines 81-82). -/
def attrLineMatch (line : Str) : Bool :=
  let s1 := line.dropWhile isWsChar
  leadsWith "//".data s1 &&
    (let s2 := (s1.drop 2).dropWhile isWsChar
     leadsWith "[[Rcpp::".data s2 &&
       (let s3 := s2.drop 8
        !(s3.takeWhile isWordChar).isEmpty && attrAfterWord (s3.dropWhile isWordChar)))

/-- Split at newline characters (the line structure seen by the
line-anchored attribute regex; carriage returns stay in the line and are
absorbed by the trailing `\s*`). -/
def splitNl : Str → List Str
  | [] => [[]]
  | c :: cs =>
      if c == '\n' then [] :: splitNl cs
      else
        match splitNl cs with
        | [] => [[c]]
        | l :: ls => (c :: l) :: ls

/-- The pure part of `sourceCppHash` (source lines 68-102), applied to the
file contents: gate on the Rcpp11 include, else concatenate the trimmed
dependency-attribute matches in document order, else fall back to the
literal `Rcpp` when the umbrella header is included directly, else empty. -/
def sourceCppHashPure (contents : Str) : Str :=
  if containsIncludeOf "<Rcpp11".data contents then []
  else
    let hash := (((splitNl contents).filter attrLineMatch).map trimAll).flatten
    if hash.isEmpty then
      if containsIncludeOf "<Rcpp".data contents then "Rcpp".data else []
    else hash

/-!
## Data model: database state and external world
-/

/-- The result of `RPackageInfo::read` (only the fields the source
consults). -/
structure PkgInfo where
  linkingTo : Str
  systemRequirements : Str

/-- `core::system::ProcessResult`. -/
structure ProcResult where
  exitStatus : Nat
  stdOut : Str
  stdErr : Str

/-- The mutable members of `RCompilationDatabase`. The two standalone maps
are association lists keyed by absolute file path. -/
structure DB where
  packageBuildFileHash_ : Str
  packageSrcArgs_ : List Str
  packagePCH_ : Str
  sourceCppArgsMap_ : List (Str × List Str)
  sourceCppHashes_ : List (Str × Str)

/-- The external collaborators of the engine, abstracted to their
observable results for one resolution request (the world is held fixed
across the calls of a theorem, modelling an unchanged environment). -/
structure World where
  /-- `projects::projectContext().buildTargetPath()`. -/
  buildTargetPath : Str
  /-- `projectContext().config().buildType == kBuildTypePackage`. -/
  buildTypeIsPackage : Bool
  /-- The value of `packageBuildFileHash()` (concatenated modification
  times of DESCRIPTION / Makevars / Makevars.win). -/
  pkgBuildFileHash : Str
  /-- `clang().compileArgs(true)`. -/
  clangCompileArgs : List Str
  /-- `pkgInfo.read(pkgPath)`: `none` models a read error. -/
  pkgInfo : Option PkgInfo
  /-- The R function `.rs.includesForLinkingTo`. -/
  includesForLinkingTo : Str → List Str
  /-- The R function `.rs.packagePCH` (empty on error). -/
  pkgPCHFor : Str → Str
  /-- `core::system::generateUuid()` for the package probe file. -/
  shlibUuid : Str
  /-- Whether writing the placeholder source for `R CMD SHLIB` succeeds. -/
  writeTempOk : Bool
  /-- The result of running `R CMD SHLIB --dry-run` (`none` models a
  launch failure, including a failed `rBinDir` lookup). -/
  shlibResult : Option ProcResult
  /-- The result of running `Rcpp::sourceCpp` via the R runtime (`none`
  models a launch failure, including a failed `rScriptPath` lookup). -/
  sourceCppResult : Option ProcResult
  /-- `core::readStringFromFile` (`none` models a read error). -/
  readFile : Str → Option Str
  /-- `module_context::userScratchPath()`. -/
  userScratchPath : Str
  /-- The R function `.rs.clangPCHPath` (`none` models an error). -/
  clangPCHPath : Option Str
  /-- The set of existing filesystem paths (files and directories). -/
  fs : List Str
  /-- Whether `precompiledDir.removeIfExists()` succeeds. -/
  removeOk : Bool
  /-- Whether `platformPath.ensureDirectory()` succeeds. -/
  ensureDirOk : Bool
  /-- Whether writing the PCH synthesis `.cpp` file succeeds. -/
  writeCppOk : Bool
  /-- `module_context::tempFile(clang, cpp)` for the PCH probe. -/
  pchTempFile : Str
  /-- Whether `clang().parseTranslationUnit` returns a translation unit. -/
  parseOk : Bool
  /-- Whether `clang().saveTranslationUnit` returns `CXSaveError_None`. -/
  saveOk : Bool

/-- Lookup in an association list (`std::map::find`). -/
def alLookup {α : Type} (k : Str) : List (Str × α) → Option α
  | [] => none
  | (k2, v) :: rest => if k == k2 then some v else alLookup k rest

/-- Insert-or-replace in an association list (`map[key] = value`). -/
def alInsert {α : Type} (k : Str) (v : α) : List (Str × α) → List (Str × α)
  | [] => [(k, v)]
  | (k2, v2) :: rest => if k == k2 then (k, v) :: rest else (k2, v2) :: alInsert k v rest

/-!
## Build tool invoker and caches
-/

/-- `sourceCppHash` (source lines 57-103): read the file, empty hash on a
read error, else the pure fingerprint of the contents. -/
def sourceCppHash (w : World) (srcPath : Str) : Str :=
  match w.readFile srcPath with
  | none => []
  | some contents => sourceCppHashPure contents

/-- The temporary probe file used by `updateForCurrentPackage`
(source lines 285-287): `src/<uuid>.cpp` under the package root. -/
def shlibTempFile (w : World) : Str :=
  childPath (childPath w.buildTargetPath "src".data) (w.shlibUuid ++ ".cpp".data)

/-- `argsForRCmdSHLIB` (source lines 569-605) paired with the number of
`R CMD SHLIB` process launches it attempts: write the placeholder file
(zero launches on failure), run the dry-run build, return the parsed
compile args on success and the empty list on a launch failure or a
non-zero exit. -/
def argsForRCmdSHLIB (w : World) (tempSrcFile : Str) : List Str × Nat :=
  if w.writeTempOk = false then ([], 0)
  else
    match w.shlibResult with
    | none => ([], 1)
    | some r =>
        if r.exitStatus != 0 then ([], 1)
        else (parseCompilationResults tempSrcFile r.stdOut, 1)

/-- `argsForSourceCpp` (source lines 527-567) paired with the number of
`Rcpp::sourceCpp` process launches it attempts: the empty list on a launch
failure or non-zero exit, else the clang compile args followed by the
parsed compile-line args. -/
def argsForSourceCpp (w : World) (srcFile : Str) : List Str × Nat :=
  match w.sourceCppResult with
  | none => ([], 1)
  | some r =>
      if r.exitStatus != 0 then ([], 1)
      else (w.clangCompileArgs ++ parseCompilationResults srcFile r.stdOut, 1)

/-- The per-argument path substitution of `updateForCurrentPackage`
(source lines 293-306): `replace_first` of `-I..` by the absolute parent
of the package `src` directory, then `replace_first` of `-I.` on the
result by the absolute `src` directory. -/
def rewriteArg (srcDir : Str) (arg : Str) : Str :=
  replaceFirst "-I.".data ("-I".data ++ srcDir)
    (replaceFirst "-I..".data ("-I".data ++ fpParent srcDir) arg)

/-- `updateForCurrentPackage` (source lines 240-314) paired with its
number of build-tool launches.  On a fingerprint hit, a package-metadata
read error, or an empty parsed argument list the state is returned
unchanged; otherwise the new fingerprint, argument list (clang args,
LinkingTo includes, rewritten SHLIB args) and PCH dependency name are
stored.  The compilation environment (Rtools, `USE_CXX1X`) only feeds the
spawned process and is abstracted into the SHLIB result. -/
def updateForCurrentPackage (w : World) (db : DB) : DB × Nat :=
  let buildFileHash := w.pkgBuildFileHash
  if buildFileHash == db.packageBuildFileHash_ then (db, 0)
  else
    match w.pkgInfo with
    | none => (db, 0)
    | some pkgInfo =>
        let args1 := w.clangCompileArgs ++
          (if pkgInfo.linkingTo.isEmpty then [] else w.includesForLinkingTo pkgInfo.linkingTo)
        let srcDir := childPath w.buildTargetPath "src".data
        let res := argsForRCmdSHLIB w (shlibTempFile w)
        if res.1.isEmpty then (db, res.2)
        else
          ({ db with
              packageSrcArgs_ := args1 ++ res.1.map (rewriteArg srcDir),
              packagePCH_ := w.pkgPCHFor pkgInfo.linkingTo,
              packageBuildFileHash_ := buildFileHash }, res.2)

/-- `updateForSourceCpp` (source lines 316-343) paired with its number of
build-tool launches: return unchanged on a fingerprint hit; bail without
invoking anything on an empty fingerprint; otherwise resolve via
`argsForSourceCpp` and store args and fingerprint only when the resolved
list is nonempty. -/
def updateForSourceCpp (w : World) (db : DB) (srcFile : Str) : DB × Nat :=
  let hash := sourceCppHash w srcFile
  let filename := srcFile
  if alLookup filename db.sourceCppHashes_ == some hash then (db, 0)
  else if hash.isEmpty then (db, 0)
  else
    let res := argsForSourceCpp w srcFile
    if res.1.isEmpty then (db, res.2)
    else
      ({ db with
          sourceCppArgsMap_ := alInsert filename res.1 db.sourceCppArgsMap_,
          sourceCppHashes_ := alInsert filename hash db.sourceCppHashes_ }, res.2)

/-!
## Precompiled header manager (`precompiledHeaderArgs`, source lines 651-776)

The filesystem is the list of existing paths; `removeIfExists` on the
per-dependency root removes every path equal to it or below it, and file
or directory creation inserts the created path.
-/

/-- Whether `p` is `root` itself or lies below it. -/
def underOrEq (root p : Str) : Bool := p == root || leadsWith (root ++ ['/']) p

/-- `FilePath::removeIfExists` on a directory: remove the directory and
everything below it. -/
def fsRemoveTree (root : Str) (fs : List Str) : List Str :=
  fs.filter (fun p => !underOrEq root p)

/-- Record a created path (set-like insertion). -/
def addPath (p : Str) (fs : List Str) : List Str := if fs.contains p then fs else p :: fs

/-- The per-dependency artifact root
`<scratch>/libclang/precompiled/<pkgName>` (source lines 659-661). -/
def precompiledRootDir (w : World) (pkgName : Str) : Str :=
  childPath w.userScratchPath ("libclang/precompiled/".data ++ pkgName)

/-- The result of `precompiledHeaderArgs`: returned flags, resulting
filesystem, build-tool launches. -/
structure PCHOut where
  args : List Str
  fs : List Str
  spawns : Nat

/-- The artifact phase of `precompiledHeaderArgs` (source lines 698-776),
entered with the platform directory in place: if the `.pch` artifact
already exists return its flags; else synthesize the `.cpp` file, run the
throwaway `R CMD SHLIB` probe, parse the translation unit (abstracted to
`w.parseOk` — the assembled argument vector feeds only this call) and
save it (`w.saveOk`; a save failure is logged but, in the source, does
not return).  The `-include-pch` flags are pushed on every path that
reaches the end of the block. -/
def pchBuild (w : World) (pkgName stdArg platformPath : Str) (fs1 : List Str) : PCHOut :=
  let pchPath := childPath platformPath (pkgName ++ stdArg ++ ".pch".data)
  if fs1.contains pchPath then ⟨["-include-pch".data, pchPath], fs1, 0⟩
  else
    let cppPath := childPath platformPath (pkgName ++ stdArg ++ ".cpp".data)
    if w.writeCppOk = false then ⟨[], fs1, 0⟩
    else
      let fs2 := addPath cppPath fs1
      let res := argsForRCmdSHLIB w w.pchTempFile
      let _parseArgs := w.clangCompileArgs ++
        (if stdArg.isEmpty then [] else [stdArg]) ++ res.1 ++ w.includesForLinkingTo pkgName
      if w.parseOk = false then ⟨[], fs2, res.2⟩
      else
        let fs3 := if w.saveOk then addPath pchPath fs2 else fs2
        ⟨["-include-pch".data, pchPath], fs3, res.2⟩

/-- `precompiledHeaderArgs` (source lines 651-776): resolve the
platform/toolchain-version directory name; when the versioned directory is
missing, delete the entire per-dependency root and recreate the versioned
directory before entering the artifact phase. -/
def precompiledHeaderArgs (w : World) (pkgName stdArg : Str) : PCHOut :=
  let precompiledDir := precompiledRootDir w pkgName
  match w.clangPCHPath with
  | none => ⟨[], w.fs, 0⟩
  | some platformDir =>
      let platformPath := childPath precompiledDir platformDir
      if w.fs.contains platformPath then pchBuild w pkgName stdArg platformPath w.fs
      else if w.removeOk = false then ⟨[], w.fs, 0⟩
      else
        let fs1 := fsRemoveTree precompiledDir w.fs
        if w.ensureDirOk = false then ⟨[], fs1, 0⟩
        else pchBuild w pkgName stdArg platformPath (addPath platformPath fs1)

/-!
## Argument resolver (`compileArgsForTranslationUnit`, source lines 430-493)
-/

/-- The package-membership test of source lines 443-444:
the project builds a package and the file lies below the package `src`
directory (`!filePath.relativePath(srcDirPath).empty()`). -/
def isPackageBranch (w : World) (filename : Str) : Bool :=
  w.buildTypeIsPackage && leadsWith (childPath w.buildTargetPath "src".data ++ ['/']) filename

/-- The result of `compileArgsForTranslationUnit`: updated database state,
returned argument list, build-tool launches (the filesystem effect of the
PCH phase is observed through `precompiledHeaderArgs` directly). -/
structure TUOut where
  db : DB
  args : List Str
  spawns : Nat

/-- `compileArgsForTranslationUnit` (source lines 430-493): delegate to the
package or standalone cache, bail on an empty captured list, and append
the precompiled-header flags when a dependency name was captured and the
lowercased extension is `.cc` or `.cpp`. -/
def compileArgsForTranslationUnit (w : World) (db : DB) (filename : Str) : TUOut :=
  let captured :=
    if isPackageBranch w filename then
      let res := updateForCurrentPackage w db
      (res.1, res.1.packageSrcArgs_, res.1.packagePCH_, res.2)
    else
      let res := updateForSourceCpp w db filename
      match alLookup filename res.1.sourceCppArgsMap_ with
      | some a => (res.1, a, "Rcpp".data, res.2)
      | none => (res.1, ([] : List Str), ([] : Str), res.2)
  match captured with
  | (db2, args, packagePCH, n) =>
      if args.isEmpty then ⟨db2, args, n⟩
      else
        if !packagePCH.isEmpty &&
            (fpExtensionLowerCase filename == ".cc".data
              || fpExtensionLowerCase filename == ".cpp".data) then
          let pch := precompiledHeaderArgs w packagePCH (extractStdArg args)
          ⟨db2, args ++ pch.args, n + pch.spawns⟩
        else ⟨db2, args, n⟩

/-- The argument list captured from the delegated cache before the
precompiled-header step of `compileArgsForTranslationUnit` (source lines
449-467): the resolver's base result. -/
def tuBaseArgs (w : World) (db : DB) (filename : Str) : List Str :=
  if isPackageBranch w filename then (updateForCurrentPackage w db).1.packageSrcArgs_
  else
    match alLookup filename (updateForSourceCpp w db filename).1.sourceCppArgsMap_ with
    | some a => a
    | none => []

/-!
## Observations on the artifact store
-/

/-- Whether `p` is an immediate child of directory `root`. -/
def isImmediateChild (root p : Str) : Bool :=
  leadsWith (root ++ ['/']) p && !((p.drop (root.length + 1)).contains '/')

/-- The toolchain-version directories currently present under a
per-dependency artifact root. -/
def versionDirs (root : Str) (fs : List Str) : List Str :=
  (fs.filter (isImmediateChild root)).map (fun p => p.drop (root.length + 1))

/-- Membership in one of the five flag classes actually recognized by the
compile-arg regex of `extractCompileArgs`: `-I`, `-D`, `-i`, `-f`, `-std`. -/
def flagClassOk (a : Str) : Prop :=
  leadsWith "-I".data a = true ∨ leadsWith "-D".data a = true ∨
    leadsWith "-i".data a = true ∨ leadsWith "-f".data a = true ∨
    leadsWith "-std".data a = true

/-!
## Concrete instances used by the witness and counterexample theorems
-/

/-- A neutral world: no project, failing collaborators, empty filesystem. -/
def w0 : World where
  buildTargetPath := "/p".data
  buildTypeIsPackage := false
  pkgBuildFileHash := []
  clangCompileArgs := []
  pkgInfo := none
  includesForLinkingTo := fun _ => []
  pkgPCHFor := fun _ => []
  shlibUuid := "u".data
  writeTempOk := true
  shlibResult := none
  sourceCppResult := none
  readFile := fun _ => none
  userScratchPath := "/s".data
  clangPCHPath := none
  fs := []
  removeOk := true
  ensureDirOk := true
  writeCppOk := true
  pchTempFile := "/tmp/clang.cpp".data
  parseOk := true
  saveOk := true

/-- File contents carrying a dependency attribute, an `Rcpp11` include and
an `Rcpp` include. -/
def rcpp11Contents : Str :=
  "// [[Rcpp::depends(RcppArmadillo)]]\n#include <Rcpp11.h>\n#include <Rcpp.h>".data

/-- A world whose file reads all yield `rcpp11Contents`. -/
def wC8 : World := { w0 with readFile := fun _ => some rcpp11Contents }

/-- A world in which every file reads as plain C++ with no dependency
markers (empty standalone fingerprint). -/
def wC1 : World := { w0 with readFile := fun _ => some "int x;".data }

/-- A database holding a stale standalone cache entry for `/t/b.cxx`,
stored under the nonempty fingerprint `Rcpp`. -/
def dbC1 : DB where
  packageBuildFileHash_ := []
  packageSrcArgs_ := []
  packagePCH_ := []
  sourceCppArgsMap_ := [("/t/b.cxx".data, ["-Iold".data])]
  sourceCppHashes_ := [("/t/b.cxx".data, "Rcpp".data)]

/-- The empty database (a fresh `RCompilationDatabase`). -/
def dbEmpty : DB where
  packageBuildFileHash_ := []
  packageSrcArgs_ := []
  packagePCH_ := []
  sourceCppArgsMap_ := []
  sourceCppHashes_ := []

/-- A package world whose dry-run build reports one compile line. -/
def wC7 : World :=
  { w0 with
      buildTypeIsPackage := true
      pkgBuildFileHash := "h1".data
      pkgInfo := some ⟨[], []⟩
      shlibResult := some ⟨0, "gcc -c u.cpp -o u -I/usr/lib".data, []⟩ }

/-- A PCH world: the versioned platform directory exists, the artifact is
missing, the libclang parse succeeds and the save fails. -/
def wC2 : World :=
  { w0 with
      clangPCHPath := some "v1".data
      fs := ["/s/libclang/precompiled/Rcpp".data, "/s/libclang/precompiled/Rcpp/v1".data]
      writeTempOk := false
      saveOk := false }

/-- As `wC2` but with a failing libclang parse. -/
def wC2b : World := { wC2 with parseOk := false }

/-- The artifact path of the `wC2` scenario. -/
def c2PchPath : Str := "/s/libclang/precompiled/Rcpp/v1/Rcpp-std=c++11.pch".data

/-- A PCH world holding a populated artifact tree for toolchain version
`v1` while the current toolchain version is `v2`. -/
def wC6 : World :=
  { w0 with
      clangPCHPath := some "v2".data
      fs := ["/s/libclang/precompiled/Rcpp".data,
             "/s/libclang/precompiled/Rcpp/v1".data,
             "/s/libclang/precompiled/Rcpp/v1/Rcpp.pch".data] }

/-- A failing world for the fail-soft scenarios: package metadata is
unreadable and the standalone dry-run compile exits nonzero. -/
def wC4 : World :=
  { w0 with
      buildTargetPath := "/q".data
      buildTypeIsPackage := true
      pkgBuildFileHash := "h9".data
      pkgInfo := none
      sourceCppResult := some ⟨1, [], "boom".data⟩
      readFile := fun _ => some "#include <Rcpp.h>".data }

/-- A database with previously cached entries for both caches. -/
def dbC4 : DB where
  packageBuildFileHash_ := "old".data
  packageSrcArgs_ := ["-Ipkgold".data]
  packagePCH_ := "Rcpp".data
  sourceCppArgsMap_ := [("/t/b.cxx".data, ["-Iold2".data])]
  sourceCppHashes_ := [("/t/b.cxx".data, "X".data)]

/-!
## Shared lemmas about the string primitives
-/

theorem leadsWith_append (p r : Str) : leadsWith p (p ++ r) = true := by
  induction p with
  | nil => rfl
  | cons a as ih => simp [leadsWith, ih]

theorem leadsWith_trans :
    ∀ (p q s : Str), leadsWith p q = true → leadsWith q s = true → leadsWith p s = true
  | [], _, _, _, _ => rfl
  | _ :: _, [], _, h, _ => by simp [leadsWith] at h
  | _ :: _, _ :: _, [], _, h2 => by simp [leadsWith] at h2
  | a :: p, b :: q, c :: s, h1, h2 => by
      simp only [leadsWith, Bool.and_eq_true, beq_iff_eq] at h1 h2 ⊢
      exact ⟨h1.1.trans h2.1, leadsWith_trans p q s h1.2 h2.2⟩

theorem containsSub_mono (p q : Str) (hpq : leadsWith p q = true) :
    ∀ s : Str, containsSub q s = true → containsSub p s = true
  | [], h => by
      simp only [containsSub] at h ⊢
      exact leadsWith_trans p q [] hpq h
  | c :: cs, h => by
      simp only [containsSub, Bool.or_eq_true] at h ⊢
      cases h with
      | inl h => exact Or.inl (leadsWith_trans p q (c :: cs) hpq h)
      | inr h => exact Or.inr (containsSub_mono p q hpq cs h)

theorem replaceFirst_of_not_contains (pat rep : Str) :
    ∀ s : Str, containsSub pat s = false → replaceFirst pat rep s = s
  | [], h => by
      simp only [containsSub] at h
      simp [replaceFirst, h]
  | c :: cs, h => by
      simp only [containsSub, Bool.or_eq_false_iff] at h
      simp [replaceFirst, h.1, replaceFirst_of_not_contains pat rep cs h.2]

theorem replaceFirst_leads (pat rep s : Str) (h : leadsWith pat s = true) :
    replaceFirst pat rep s = rep ++ s.drop pat.length := by
  cases s with
  | nil =>
      cases pat with
      | nil => simp [replaceFirst, leadsWith]
      | cons a as => simp [leadsWith] at h
  | cons c cs => simp [replaceFirst, h]

theorem drop_len_append (a b : List Char) : (a ++ b).drop a.length = b := by
  induction a with
  | nil => rfl
  | cons x xs ih => simp [ih]

theorem squeezeWs_cons_of_not_ws {c : Char} (hc : isWsChar c = false) :
    ∀ r : Str, squeezeWs (c :: r) = c :: squeezeWs r
  | [] => by simp [squeezeWs, hc]
  | d :: rest => by simp [squeezeWs, hc]

theorem trimAll_ws_cons {b : Char} (hb : isWsChar b = true) (s : Str) :
    trimAll (b :: s) = trimAll s := by
  simp [trimAll, List.dropWhile_cons, hb]

theorem trimAll_cons_of_not_ws {c : Char} (hc : isWsChar c = false) (s : Str) :
    trimAll (c :: s) = c :: squeezeWs s := by
  simp [trimAll, List.dropWhile_cons, hc, squeezeWs_cons_of_not_ws hc]

theorem removeQuotes_cons_of_ne {c : Char} (hc : (c != qc) = true) (s : Str) :
    removeQuotes (c :: s) = c :: removeQuotes s := by
  simp [removeQuotes, List.filter_cons, hc]

/-!
## C9 — standard-flag extraction
-/

/-- C9 (confirmed): `extractStdArg` returns the first argument starting
with `-std=` (later duplicates are ignored) and the empty string when no
argument starts with `-std=`. -/
theorem c9_std_flag_first_occurrence (pre post : List Str) (a : Str)
    (hpre : ∀ x ∈ pre, leadsWith "-std=".data x = false)
    (ha : leadsWith "-std=".data a = true) :
    extractStdArg (pre ++ a :: post) = a ∧
      ∀ args : List Str, (∀ x ∈ args, leadsWith "-std=".data x = false) →
        extractStdArg args = [] := by
  constructor
  · induction pre with
    | nil => simp [extractStdArg, ha]
    | cons x xs ih =>
        have hx := hpre x (by simp)
        simp only [List.cons_append, extractStdArg, hx, Bool.false_eq_true, if_false]
        exact ih fun y hy => hpre y (by simp [hy])
  · intro args h
    induction args with
    | nil => rfl
    | cons x xs ih =>
        have hx := h x (by simp)
        simp only [extractStdArg, hx, Bool.false_eq_true, if_false]
        exact ih fun y hy => h y (by simp [hy])

/-- Witness for C9: with two `-std=` tokens in sequence the first is
selected. -/
theorem c9_witness :
    extractStdArg ["-O2".data, "-std=c++11".data, "-std=c++14".data] = "-std=c++11".data :=
  (c9_std_flag_first_occurrence ["-O2".data] ["-std=c++14".data] "-std=c++11".data
    (by decide) (by decide)).1

/-!
## C8 — incompatible-variant gating
-/

/-- C8 (confirmed): whenever the file contents match the `Rcpp11` include
pattern, the fingerprint is empty, regardless of any dependency-attribute
annotations or umbrella-header includes also present. -/
theorem c8_rcpp11_gate (w : World) (f contents : Str)
    (hread : w.readFile f = some contents)
    (h11 : containsIncludeOf "<Rcpp11".data contents = true) :
    sourceCppHash w f = [] := by
  simp [sourceCppHash, hread, sourceCppHashPure, h11]

/-- Witness for C8: contents carrying an attribute annotation and an
`Rcpp` include still fingerprint to empty once `Rcpp11` is included. -/
theorem c8_witness :
    containsIncludeOf "<Rcpp11".data rcpp11Contents = true ∧
      attrLineMatch "// [[Rcpp::depends(RcppArmadillo)]]".data = true ∧
      containsIncludeOf "<Rcpp".data rcpp11Contents = true ∧
      sourceCppHash wC8 "/t/a.cpp".data = [] :=
  ⟨by decide, by decide, by decide,
    c8_rcpp11_gate wC8 "/t/a.cpp".data rcpp11Contents rfl (by decide)⟩

/-!
## C5 — package path rewriting
-/

/-- C5 (confirmed): the per-argument substitution of
`updateForCurrentPackage` leaves arguments without `-I.` untouched,
rewrites an argument starting with `-I..` to the absolute parent of the
package source directory, rewrites an argument starting with `-I.` (and
not containing `-I..`) to the absolute source directory, and the parent
of `<pkg>/src` is the package root itself. -/
theorem c5_package_path_rewriting (srcDir : Str) :
    (∀ arg : Str, containsSub "-I.".data arg = false → rewriteArg srcDir arg = arg) ∧
    (∀ rest : Str,
        containsSub "-I.".data ("-I".data ++ (fpParent srcDir ++ rest)) = false →
        rewriteArg srcDir ("-I..".data ++ rest) = "-I".data ++ (fpParent srcDir ++ rest)) ∧
    (∀ rest : Str,
        containsSub "-I..".data ("-I.".data ++ rest) = false →
        rewriteArg srcDir ("-I.".data ++ rest) = "-I".data ++ (srcDir ++ rest)) ∧
    (∀ p : Str, fpParent (childPath p "src".data) = p) := by
  refine ⟨?_, ?_, ?_, ?_⟩
  · intro arg h
    have h2 : containsSub "-I..".data arg = false := by
      cases hc : containsSub "-I..".data arg
      · rfl
      · exact absurd (containsSub_mono "-I.".data "-I..".data (by decide) arg hc)
          (by simp [h])
    rw [rewriteArg, replaceFirst_of_not_contains _ _ _ h2,
      replaceFirst_of_not_contains _ _ _ h]
  · intro rest h
    rw [rewriteArg,
      replaceFirst_leads _ _ _ (leadsWith_append "-I..".data rest),
      drop_len_append, ← List.append_assoc,
      replaceFirst_of_not_contains _ _ _ (by rwa [List.append_assoc]),
      List.append_assoc]
  · intro rest h
    rw [rewriteArg, replaceFirst_of_not_contains _ _ _ h,
      replaceFirst_leads _ _ _ (leadsWith_append "-I.".data rest),
      drop_len_append, List.append_assoc]
  · intro p
    have hrev : (childPath p "src".data).reverse = ['c', 'r', 's'] ++ '/' :: p.reverse := by
      simp [childPath]
    rw [fpParent, hrev]
    have hdrop :
        List.dropWhile (fun c => c != '/') (['c', 'r', 's'] ++ '/' :: p.reverse)
          = '/' :: p.reverse := by
      simp [List.dropWhile]
    rw [hdrop]
    simp

/-- Witness for C5: concrete rewrites of `-I../inst/include`, `-I.` and a
pass-through define flag against the source directory
`/home/u/pkg/src`. -/
theorem c5_witness :
    rewriteArg "/home/u/pkg/src".data ("-I..".data ++ "/inst/include".data)
        = "-I".data ++ (fpParent "/home/u/pkg/src".data ++ "/inst/include".data) ∧
      rewriteArg "/home/u/pkg/src".data ("-I.".data ++ [])
        = "-I".data ++ ("/home/u/pkg/src".data ++ []) ∧
      rewriteArg "/home/u/pkg/src".data "-DNDEBUG".data = "-DNDEBUG".data ∧
      fpParent (childPath "/home/u/pkg".data "src".data) = "/home/u/pkg".data :=
  ⟨(c5_package_path_rewriting "/home/u/pkg/src".data).2.1 "/inst/include".data (by decide),
    (c5_package_path_rewriting "/home/u/pkg/src".data).2.2.1 [] (by decide),
    (c5_package_path_rewriting "/home/u/pkg/src".data).1 "-DNDEBUG".data (by decide),
    (c5_package_path_rewriting "/home/u/pkg/src".data).2.2.2 "/home/u/pkg".data⟩

/-!
## C3 — compile-line parser
-/

theorem matchFlag_classes {s cls r : Str} (h : matchFlag s = some (cls, r)) :
    cls = ['I'] ∨ cls = ['D'] ∨ cls = ['i'] ∨ cls = ['f'] ∨ cls = ['s', 't', 'd'] := by
  cases s with
  | nil => simp [matchFlag] at h
  | cons c t =>
      simp only [matchFlag] at h
      split at h
      · rename_i h1
        simp only [Option.some.injEq, Prod.mk.injEq] at h
        simp only [Bool.or_eq_true, beq_iff_eq] at h1
        rcases h1 with ((hc | hc) | hc) | hc <;> subst hc <;> simp [← h.1]
      · split at h
        · simp only [Option.some.injEq, Prod.mk.injEq] at h
          rw [← h.1]
          simp [String.data]
        · simp at h

theorem tryMatchAt_shape {s : Str} {m : Char × Str × Str} {rest : Str}
    (h : tryMatchAt s = some (m, rest)) :
    isWsChar m.1 = true ∧
      (m.2.1 = ['I'] ∨ m.2.1 = ['D'] ∨ m.2.1 = ['i'] ∨ m.2.1 = ['f']
        ∨ m.2.1 = ['s', 't', 'd']) := by
  cases s with
  | nil => simp [tryMatchAt] at h
  | cons b t =>
      cases t with
      | nil => simp [tryMatchAt] at h
      | cons c r0 =>
          simp only [tryMatchAt] at h
          split at h
          · rename_i h1
            cases hmf : matchFlag r0 with
            | none => simp [hmf] at h
            | some p =>
                obtain ⟨cls, r1⟩ := p
                simp only [hmf] at h
                cases hmt : matchTail r1 with
                | none => simp [hmt] at h
                | some q =>
                    obtain ⟨tl, r2⟩ := q
                    simp only [hmt, Option.some.injEq, Prod.mk.injEq] at h
                    rw [← h.1]
                    refine ⟨?_, matchFlag_classes hmf⟩
                    simp only [Bool.and_eq_true, Bool.or_eq_true, beq_iff_eq] at h1
                    rcases h1.1 with hb | hb <;> subst hb
                    · exact (by decide : isWsChar ' ' = true)
                    · exact (by decide : isWsChar '\t' = true)
          · simp at h

theorem renderArg_flagClassOk {b : Char} {cls tl : Str}
    (hb : isWsChar b = true)
    (hcls : cls = ['I'] ∨ cls = ['D'] ∨ cls = ['i'] ∨ cls = ['f'] ∨ cls = ['s', 't', 'd']) :
    flagClassOk (renderArg (b, cls, tl)) := by
  have hdash : isWsChar '-' = false := by decide
  rcases hcls with rfl | rfl | rfl | rfl | rfl
  · refine Or.inl ?_
    simp only [renderArg, trimAll_ws_cons hb, trimAll_cons_of_not_ws hdash, List.cons_append,
      List.nil_append, squeezeWs_cons_of_not_ws (show isWsChar 'I' = false by decide),
      removeQuotes_cons_of_ne (show ('-' != qc) = true by decide),
      removeQuotes_cons_of_ne (show ('I' != qc) = true by decide)]
    simp [leadsWith]
  · refine Or.inr (Or.inl ?_)
    simp only [renderArg, trimAll_ws_cons hb, trimAll_cons_of_not_ws hdash, List.cons_append,
      List.nil_append, squeezeWs_cons_of_not_ws (show isWsChar 'D' = false by decide),
      removeQuotes_cons_of_ne (show ('-' != qc) = true by decide),
      removeQuotes_cons_of_ne (show ('D' != qc) = true by decide)]
    simp [leadsWith]
  · refine Or.inr (Or.inr (Or.inl ?_))
    simp only [renderArg, trimAll_ws_cons hb, trimAll_cons_of_not_ws hdash, List.cons_append,
      List.nil_append, squeezeWs_cons_of_not_ws (show isWsChar 'i' = false by decide),
      removeQuotes_cons_of_ne (show ('-' != qc) = true by decide),
      removeQuotes_cons_of_ne (show ('i' != qc) = true by decide)]
    simp [leadsWith]
  · refine Or.inr (Or.inr (Or.inr (Or.inl ?_)))
    simp only [renderArg, trimAll_ws_cons hb, trimAll_cons_of_not_ws hdash, List.cons_append,
      List.nil_append, squeezeWs_cons_of_not_ws (show isWsChar 'f' = false by decide),
      removeQuotes_cons_of_ne (show ('-' != qc) = true by decide),
      removeQuotes_cons_of_ne (show ('f' != qc) = true by decide)]
    simp [leadsWith]
  · refine Or.inr (Or.inr (Or.inr (Or.inr ?_)))
    simp only [renderArg, trimAll_ws_cons hb, trimAll_cons_of_not_ws hdash, List.cons_append,
      List.nil_append,
      squeezeWs_cons_of_not_ws (show isWsChar 's' = false by decide),
      squeezeWs_cons_of_not_ws (show isWsChar 't' = false by decide),
      squeezeWs_cons_of_not_ws (show isWsChar 'd' = false by decide),
      removeQuotes_cons_of_ne (show ('-' != qc) = true by decide),
      removeQuotes_cons_of_ne (show ('s' != qc) = true by decide),
      removeQuotes_cons_of_ne (show ('t' != qc) = true by decide),
      removeQuotes_cons_of_ne (show ('d' != qc) = true by decide)]
    simp [leadsWith]

theorem scanLineF_shape (fuel : Nat) :
    ∀ (s : Str) (m : Char × Str × Str), m ∈ scanLineF fuel s →
      isWsChar m.1 = true ∧
        (m.2.1 = ['I'] ∨ m.2.1 = ['D'] ∨ m.2.1 = ['i'] ∨ m.2.1 = ['f']
          ∨ m.2.1 = ['s', 't', 'd']) := by
  induction fuel with
  | zero => intro s m h; simp [scanLineF] at h
  | succ n ih =>
      intro s m h
      cases s with
      | nil => simp [scanLineF] at h
      | cons c cs =>
          simp only [scanLineF] at h
          cases htm : tryMatchAt (c :: cs) with
          | none => rw [htm] at h; exact ih cs m h
          | some pr =>
              obtain ⟨m0, rest⟩ := pr
              rw [htm] at h
              simp only [List.mem_cons] at h
              cases h with
              | inl he => subst he; exact tryMatchAt_shape htm
              | inr ht => exact ih rest m ht

theorem extractCompileArgs_class (line : Str) :
    ∀ a ∈ extractCompileArgs line, flagClassOk a := by
  intro a ha
  simp only [extractCompileArgs, scanLine, List.mem_map] at ha
  obtain ⟨⟨b, cls, tl⟩, hm, rfl⟩ := ha
  have hs := scanLineF_shape line.length line (b, cls, tl) hm
  exact renderArg_flagClassOk hs.1 hs.2

theorem pcrGo_eq_flatten (compile : Str) :
    ∀ ls : List Str,
      pcrGo compile ls
        = ((ls.filter fun l => containsSub compile l).map extractCompileArgs).flatten
  | [] => rfl
  | l :: ls => by
      simp only [pcrGo, List.filter_cons]
      cases h : containsSub compile l <;>
        simp [h, pcrGo_eq_flatten compile ls]

/-- C3 (corrected): every token produced by the compile-line parser belongs
to one of the FIVE flag classes `-I`, `-D`, `-i`, `-f`, `-std` (the regex
also admits `-f` tokens, which refutes the four-class claim); tokens come
from the signature-matching lines in line order then token order, and when
no line contains the signature the result is empty. -/
theorem c3_flag_classes_and_order (srcFile results : Str) :
    (∀ a ∈ parseCompilationResults srcFile results, flagClassOk a) ∧
      ((∀ l ∈ splitLinesRN results, containsSub (compileSignature srcFile) l = false) →
        parseCompilationResults srcFile results = []) ∧
      parseCompilationResults srcFile results
        = (((splitLinesRN results).filter fun l =>
              containsSub (compileSignature srcFile) l).map extractCompileArgs).flatten := by
  refine ⟨?_, ?_, pcrGo_eq_flatten _ _⟩
  · intro a ha
    rw [parseCompilationResults, pcrGo_eq_flatten] at ha
    simp only [List.mem_flatten, List.mem_map, List.mem_filter] at ha
    obtain ⟨_, ⟨l, _, rfl⟩, hal⟩ := ha
    exact extractCompileArgs_class l a hal
  · intro h
    rw [parseCompilationResults, pcrGo_eq_flatten]
    have : (splitLinesRN results).filter (fun l => containsSub (compileSignature srcFile) l)
        = [] := by
      rw [List.filter_eq_nil_iff]
      intro l hl
      simp [h l hl]
    simp [this]

/-- Counterexample for C3 as stated: on a signature-matching line carrying
`-fPIC` the parser extracts the `-fPIC` token, which matches none of the
four claimed flag classes `-I`, `-D`, `-i`, `-std`. -/
theorem c3_counterexample :
    parseCompilationResults "/t/foo.cpp".data "gcc -c foo.cpp -o foo -fPIC".data
        = ["-fPIC".data] ∧
      leadsWith "-I".data "-fPIC".data = false ∧
      leadsWith "-D".data "-fPIC".data = false ∧
      leadsWith "-i".data "-fPIC".data = false ∧
      leadsWith "-std".data "-fPIC".data = false := by
  refine ⟨by decide, by decide, by decide, by decide, by decide⟩

/-- Witness for C3: the parser keeps include/define flags of a matching
line in order (the spec's end-to-end line) and returns the empty list for
a log with no signature line. -/
theorem c3_witness :
    flagClassOk "-I/usr/include/dep".data ∧
      parseCompilationResults "/t/foo.cpp".data "ld: linking app".data = [] ∧
      parseCompilationResults "/t/foo.cpp".data
          "cc -c foo.cpp -o foo -I/usr/include/dep -DFOO=1".data
        = ["-I/usr/include/dep".data, "-DFOO=1".data] :=
  ⟨(c3_flag_classes_and_order "/t/foo.cpp".data
        "cc -c foo.cpp -o foo -I/usr/include/dep -DFOO=1".data).1
      "-I/usr/include/dep".data (by decide),
    (c3_flag_classes_and_order "/t/foo.cpp".data "ld: linking app".data).2.1 (by decide),
    by decide⟩

/-!
## Cache lemmas
-/

theorem argsForRCmdSHLIB_spawns_of_ne (w : World) (t : Str)
    (h : (argsForRCmdSHLIB w t).1 ≠ []) : (argsForRCmdSHLIB w t).2 = 1 := by
  unfold argsForRCmdSHLIB at h ⊢
  by_cases hw : w.writeTempOk = false
  · simp [hw] at h
  · simp only [hw, if_false] at h ⊢
    cases hr : w.shlibResult with
    | none => simp
    | some r =>
        simp only
        by_cases he : r.exitStatus != 0 <;> simp [he]

theorem updateForSourceCpp_empty_hash (w : World) (db : DB) (f : Str)
    (hhash : sourceCppHash w f = []) : updateForSourceCpp w db f = (db, 0) := by
  unfold updateForSourceCpp
  rw [hhash]
  by_cases hl : (alLookup f db.sourceCppHashes_ == some ([] : Str)) = true
  · simp [hl]
  · simp [hl]

/-!
## C1 — empty-fingerprint gating of standalone resolution
-/

/-- C1 (corrected): for a standalone file whose fingerprint is empty the
standalone cache is left unchanged and no build tool is invoked; the
resolver returns the empty list only when no prior cache entry exists for
the path — a prior entry stored under a different, nonempty fingerprint
is returned as-is (shown here away from the `.cc`/`.cpp` extensions,
which would merely append PCH flags to the same stale list). -/
theorem c1_empty_fingerprint_standalone (w : World) (db : DB) (f : Str)
    (hbranch : isPackageBranch w f = false)
    (hhash : sourceCppHash w f = []) :
    updateForSourceCpp w db f = (db, 0) ∧
      (alLookup f db.sourceCppArgsMap_ = none →
        compileArgsForTranslationUnit w db f = ⟨db, [], 0⟩) ∧
      (∀ a : List Str, alLookup f db.sourceCppArgsMap_ = some a →
        fpExtensionLowerCase f ≠ ".cc".data → fpExtensionLowerCase f ≠ ".cpp".data →
        compileArgsForTranslationUnit w db f = ⟨db, a, 0⟩) := by
  have hupd := updateForSourceCpp_empty_hash w db f hhash
  refine ⟨hupd, ?_, ?_⟩
  · intro hnone
    simp [compileArgsForTranslationUnit, hbranch, hupd, hnone]
  · intro a hsome hcc hcpp
    have e1 : (fpExtensionLowerCase f == ".cc".data) = false := beq_eq_false_iff_ne.mpr hcc
    have e2 : (fpExtensionLowerCase f == ".cpp".data) = false := beq_eq_false_iff_ne.mpr hcpp
    by_cases ha : a.isEmpty = true
    · simp [compileArgsForTranslationUnit, hbranch, hupd, hsome, ha]
    · simp [compileArgsForTranslationUnit, hbranch, hupd, hsome, ha, e1, e2]

/-- Counterexample for C1 as stated: the fingerprint of `/t/b.cxx` is
empty, yet resolution returns the stale cached list stored earlier under
the nonempty fingerprint `Rcpp`, not the empty list. -/
theorem c1_counterexample :
    sourceCppHash wC1 "/t/b.cxx".data = [] ∧
      (compileArgsForTranslationUnit wC1 dbC1 "/t/b.cxx".data).args = ["-Iold".data] ∧
      ["-Iold".data] ≠ ([] : List Str) := by
  refine ⟨by decide, by decide, by decide⟩

/-- Witness for C1: the amended behaviour at the concrete stale-entry
world — cache unchanged, zero spawns, stale list returned. -/
theorem c1_witness :
    isPackageBranch wC1 "/t/b.cxx".data = false ∧
      sourceCppHash wC1 "/t/b.cxx".data = [] ∧
      compileArgsForTranslationUnit wC1 dbC1 "/t/b.cxx".data = ⟨dbC1, ["-Iold".data], 0⟩ :=
  ⟨by decide, by decide,
    (c1_empty_fingerprint_standalone wC1 dbC1 "/t/b.cxx".data (by decide) (by decide)).2.2
      ["-Iold".data] (by decide) (by decide) (by decide)⟩

/-!
## C4 — fail-soft cache retention
-/

/-- C4 (confirmed): when package resolution fails (unreadable package
metadata, failed or flag-less `R CMD SHLIB` run) the package cache triple
is left exactly as before and package-branch resolution returns the
previously cached list; when standalone resolution fails or yields no
flags, the standalone maps are left as before and resolution returns the
previously cached entry (extensions other than `.cc`/`.cpp` are used so
that the returned list is the bare cached list, without PCH flags). -/
theorem c4_fail_soft_cache_retention (w : World) (db : DB) (f : Str) :
    ((w.pkgInfo = none ∨ (argsForRCmdSHLIB w (shlibTempFile w)).1 = []) →
        (updateForCurrentPackage w db).1 = db) ∧
      ((w.pkgInfo = none ∨ (argsForRCmdSHLIB w (shlibTempFile w)).1 = []) →
        isPackageBranch w f = true →
        fpExtensionLowerCase f ≠ ".cc".data → fpExtensionLowerCase f ≠ ".cpp".data →
        (compileArgsForTranslationUnit w db f).db = db ∧
          (compileArgsForTranslationUnit w db f).args = db.packageSrcArgs_) ∧
      ((argsForSourceCpp w f).1 = [] → (updateForSourceCpp w db f).1 = db) ∧
      ((argsForSourceCpp w f).1 = [] →
        isPackageBranch w f = false →
        fpExtensionLowerCase f ≠ ".cc".data → fpExtensionLowerCase f ≠ ".cpp".data →
        (compileArgsForTranslationUnit w db f).db = db ∧
          (compileArgsForTranslationUnit w db f).args
            = (alLookup f db.sourceCppArgsMap_).getD []) := by
  have hpkg : (w.pkgInfo = none ∨ (argsForRCmdSHLIB w (shlibTempFile w)).1 = []) →
      (updateForCurrentPackage w db).1 = db := by
    intro h
    unfold updateForCurrentPackage
    by_cases h0 : (w.pkgBuildFileHash == db.packageBuildFileHash_) = true
    · simp [h0]
    · simp only [h0, Bool.false_eq_true, if_false]
      cases hpi : w.pkgInfo with
      | none => simp
      | some pi =>
          rcases h with h | h
          · rw [hpi] at h; exact absurd h (by simp)
          · simp [h]
  have hsc : (argsForSourceCpp w f).1 = [] → (updateForSourceCpp w db f).1 = db := by
    intro h
    unfold updateForSourceCpp
    by_cases hl :
        (alLookup f db.sourceCppHashes_ == some (sourceCppHash w f)) = true
    · simp [hl]
    · simp only [hl, Bool.false_eq_true, if_false]
      by_cases hh : (sourceCppHash w f).isEmpty = true
      · simp [hh]
      · simp [hh, h]
  refine ⟨hpkg, ?_, hsc, ?_⟩
  · intro h hb hcc hcpp
    have e1 : (fpExtensionLowerCase f == ".cc".data) = false := beq_eq_false_iff_ne.mpr hcc
    have e2 : (fpExtensionLowerCase f == ".cpp".data) = false := beq_eq_false_iff_ne.mpr hcpp
    have hu := hpkg h
    have hu2 : (updateForCurrentPackage w db).1.packageSrcArgs_ = db.packageSrcArgs_ := by
      rw [hu]
    by_cases ha : db.packageSrcArgs_.isEmpty = true
    · constructor <;>
        simp [compileArgsForTranslationUnit, hb, hu, ha]
    · constructor <;>
        simp [compileArgsForTranslationUnit, hb, hu, ha, e1, e2]
  · intro h hb hcc hcpp
    have e1 : (fpExtensionLowerCase f == ".cc".data) = false := beq_eq_false_iff_ne.mpr hcc
    have e2 : (fpExtensionLowerCase f == ".cpp".data) = false := beq_eq_false_iff_ne.mpr hcpp
    have hu := hsc h
    cases hlm : alLookup f db.sourceCppArgsMap_ with
    | none =>
        constructor <;> simp [compileArgsForTranslationUnit, hb, hu, hlm]
    | some a =>
        by_cases ha : a.isEmpty = true
        · constructor <;> simp [compileArgsForTranslationUnit, hb, hu, hlm, ha]
        · constructor <;> simp [compileArgsForTranslationUnit, hb, hu, hlm, ha, e1, e2]

/-- A world for the C4 witness: package metadata unreadable and the
standalone `sourceCpp` run exits nonzero, with stale entries in both
caches. -/
theorem c4_witness :
    (updateForCurrentPackage wC4 dbC4).1 = dbC4 ∧
      (compileArgsForTranslationUnit wC4 dbC4 "/q/src/a.c".data).args
        = dbC4.packageSrcArgs_ ∧
      (updateForSourceCpp wC4 dbC4 "/t/b.cxx".data).1 = dbC4 ∧
      (compileArgsForTranslationUnit wC4 dbC4 "/t/b.cxx".data).args
        = (alLookup "/t/b.cxx".data dbC4.sourceCppArgsMap_).getD [] :=
  ⟨(c4_fail_soft_cache_retention wC4 dbC4 "/q/src/a.c".data).1 (Or.inl rfl),
    ((c4_fail_soft_cache_retention wC4 dbC4 "/q/src/a.c".data).2.1 (Or.inl rfl)
      (by decide) (by decide) (by decide)).2,
    (c4_fail_soft_cache_retention wC4 dbC4 "/t/b.cxx".data).2.2.1 (by decide),
    ((c4_fail_soft_cache_retention wC4 dbC4 "/t/b.cxx".data).2.2.2 (by decide)
      (by decide) (by decide) (by decide)).2⟩

/-!
## C7 — package-resolution idempotence
-/

/-- C7 (confirmed): with an unchanged build-file fingerprint world, a
successful first package resolution spawns exactly one build-tool process
and a second resolution is a pure cache hit: zero spawns, identical state
and identical argument list. -/
theorem c7_package_resolve_idempotent (w : World) (db : DB)
    (hne : (w.pkgBuildFileHash == db.packageBuildFileHash_) = false)
    (hpi : w.pkgInfo.isSome = true)
    (hargs : (argsForRCmdSHLIB w (shlibTempFile w)).1 ≠ []) :
    (updateForCurrentPackage w db).2 = 1 ∧
      updateForCurrentPackage w (updateForCurrentPackage w db).1
        = ((updateForCurrentPackage w db).1, 0) ∧
      (updateForCurrentPackage w (updateForCurrentPackage w db).1).1.packageSrcArgs_
        = (updateForCurrentPackage w db).1.packageSrcArgs_ := by
  cases hpi2 : w.pkgInfo with
  | none => rw [hpi2] at hpi; simp at hpi
  | some pi =>
      have hne2 : (argsForRCmdSHLIB w (shlibTempFile w)).1.isEmpty = false := by
        cases hres : (argsForRCmdSHLIB w (shlibTempFile w)).1
        · exact absurd hres hargs
        · rfl
      have h1 : updateForCurrentPackage w db
          = ({ db with
                packageSrcArgs_ := w.clangCompileArgs ++
                  (if pi.linkingTo.isEmpty then []
                    else w.includesForLinkingTo pi.linkingTo) ++
                  (argsForRCmdSHLIB w (shlibTempFile w)).1.map
                    (rewriteArg (childPath w.buildTargetPath "src".data)),
                packagePCH_ := w.pkgPCHFor pi.linkingTo,
                packageBuildFileHash_ := w.pkgBuildFileHash },
              (argsForRCmdSHLIB w (shlibTempFile w)).2) := by
        unfold updateForCurrentPackage
        simp [hne, hpi2, hne2]
      refine ⟨?_, ?_, ?_⟩
      · rw [h1]
        exact argsForRCmdSHLIB_spawns_of_ne w _ hargs
      · rw [h1]
        unfold updateForCurrentPackage
        simp
      · rw [h1]
        unfold updateForCurrentPackage
        simp

/-- Witness for C7 at the concrete package world `wC7`. -/
theorem c7_witness :
    (updateForCurrentPackage wC7 dbEmpty).2 = 1 ∧
      updateForCurrentPackage wC7 (updateForCurrentPackage wC7 dbEmpty).1
        = ((updateForCurrentPackage wC7 dbEmpty).1, 0) :=
  ⟨(c7_package_resolve_idempotent wC7 dbEmpty (by decide) rfl (by decide)).1,
    (c7_package_resolve_idempotent wC7 dbEmpty (by decide) rfl (by decide)).2.1⟩

/-!
## C10 — extension gating of PCH flags
-/

/-- C10 (confirmed): unless the lowercased extension of the resolved file
is exactly `.cc` or `.cpp`, the resolver returns the captured base
argument list with no precompiled-header flags appended, regardless of the
cached arguments or dependency name. -/
theorem c10_pch_extension_gate (w : World) (db : DB) (f : Str)
    (hcc : fpExtensionLowerCase f ≠ ".cc".data)
    (hcpp : fpExtensionLowerCase f ≠ ".cpp".data) :
    (compileArgsForTranslationUnit w db f).args = tuBaseArgs w db f := by
  have e1 : (fpExtensionLowerCase f == ".cc".data) = false := beq_eq_false_iff_ne.mpr hcc
  have e2 : (fpExtensionLowerCase f == ".cpp".data) = false := beq_eq_false_iff_ne.mpr hcpp
  by_cases hb : isPackageBranch w f = true
  · by_cases ha : (updateForCurrentPackage w db).1.packageSrcArgs_.isEmpty = true
    · simp [compileArgsForTranslationUnit, tuBaseArgs, hb, ha]
    · simp [compileArgsForTranslationUnit, tuBaseArgs, hb, ha, e1, e2]
  · rw [Bool.not_eq_true] at hb
    cases hlm : alLookup f (updateForSourceCpp w db f).1.sourceCppArgsMap_ with
    | none => simp [compileArgsForTranslationUnit, tuBaseArgs, hb, hlm]
    | some a =>
        by_cases ha : a.isEmpty = true
        · simp [compileArgsForTranslationUnit, tuBaseArgs, hb, hlm, ha]
        · simp [compileArgsForTranslationUnit, tuBaseArgs, hb, hlm, ha, e1, e2]

/-- Witness for C10: a `.cxx` file with a nonempty cached list and an
identified dependency name still gets the bare cached list. -/
theorem c10_witness :
    (compileArgsForTranslationUnit wC1 dbC1 "/t/b.cxx".data).args
        = tuBaseArgs wC1 dbC1 "/t/b.cxx".data ∧
      tuBaseArgs wC1 dbC1 "/t/b.cxx".data = ["-Iold".data] ∧
      fpExtensionLowerCase "/t/b.cxx".data = ".cxx".data :=
  ⟨c10_pch_extension_gate wC1 dbC1 "/t/b.cxx".data (by decide) (by decide),
    by decide, by decide⟩

/-!
## Filesystem lemmas for the artifact store
-/

theorem contains_iff_mem {α : Type} [BEq α] [LawfulBEq α] {l : List α} {a : α} :
    l.contains a = true ↔ a ∈ l := by
  simp [List.contains, List.elem_iff]

theorem leadsWith_append_both (a b c : Str) :
    leadsWith (a ++ b) (a ++ c) = leadsWith b c := by
  induction a with
  | nil => rfl
  | cons x xs ih => simp [leadsWith, ih]

theorem childPath_split (root d : Str) : childPath root d = (root ++ ['/']) ++ d := by
  simp [childPath]

theorem underOrEq_childPath (root d : Str) : underOrEq root (childPath root d) = true := by
  rw [underOrEq, childPath_split, leadsWith_append]
  simp

theorem drop_childPath (root d : Str) : (childPath root d).drop (root.length + 1) = d := by
  have hl : (root ++ ['/']).length = root.length + 1 := by simp
  rw [childPath_split, ← hl, drop_len_append]

theorem immChild_childPath (root d : Str) (hd : d.contains '/' = false) :
    isImmediateChild root (childPath root d) = true := by
  rw [isImmediateChild, drop_childPath, childPath_split, leadsWith_append, hd]
  rfl

theorem childPath_assoc (root d n : Str) :
    childPath (childPath root d) n = childPath root (d ++ '/' :: n) := by
  simp [childPath]

theorem not_immChild_deep (root d n : Str) :
    isImmediateChild root (childPath (childPath root d) n) = false := by
  rw [childPath_assoc, isImmediateChild, drop_childPath]
  have h : (d ++ '/' :: n).contains '/' = true := contains_iff_mem.mpr (by simp)
  rw [h]
  simp

theorem not_immChild_of_not_under {root p : Str} (h : underOrEq root p = false) :
    isImmediateChild root p = false := by
  rw [underOrEq, Bool.or_eq_false_iff] at h
  rw [isImmediateChild, h.2]
  simp

theorem versionDirs_cons (root p : Str) (fs : List Str) :
    versionDirs root (p :: fs)
      = if isImmediateChild root p then p.drop (root.length + 1) :: versionDirs root fs
        else versionDirs root fs := by
  simp only [versionDirs, List.filter_cons]
  split <;> simp

theorem versionDirs_removeTree (root : Str) :
    ∀ fs : List Str, versionDirs root (fsRemoveTree root fs) = []
  | [] => rfl
  | p :: fs => by
      unfold fsRemoveTree
      rw [List.filter_cons]
      by_cases hu : underOrEq root p = true
      · simp only [hu, Bool.not_true, Bool.false_eq_true, if_false]
        exact versionDirs_removeTree root fs
      · have hu2 : underOrEq root p = false := Bool.not_eq_true _ ▸ hu
        simp only [hu2, Bool.not_false, if_true]
        rw [versionDirs_cons, not_immChild_of_not_under hu2]
        simp only [Bool.false_eq_true, if_false]
        exact versionDirs_removeTree root fs

theorem versionDirs_addPath_deep (root d n : Str) (fs : List Str) :
    versionDirs root (addPath (childPath (childPath root d) n) fs)
      = versionDirs root fs := by
  unfold addPath
  split
  · rfl
  · rw [versionDirs_cons, not_immChild_deep]
    simp

theorem versionDirs_pchBuild (w : World) (pkg std root d : Str) (fs1 : List Str) :
    versionDirs root (pchBuild w pkg std (childPath root d) fs1).fs
      = versionDirs root fs1 := by
  unfold pchBuild
  dsimp only
  split
  · rfl
  · split
    · rfl
    · split
      · exact versionDirs_addPath_deep root d _ fs1
      · split
        · rw [versionDirs_addPath_deep, versionDirs_addPath_deep]
        · rw [versionDirs_addPath_deep]

/-!
## C6 — coarse PCH eviction
-/

/-- C6 (confirmed): when the toolchain-version directory for a dependency
is missing, the whole per-dependency artifact root is wiped and only the
new versioned directory exists under it afterwards; moreover every call
preserves the invariant that at most one toolchain-version directory per
dependency is retained. -/
theorem c6_pch_version_eviction (w : World) (pkgName stdArg platformDir : Str)
    (hdir : w.clangPCHPath = some platformDir)
    (hslash : platformDir.contains '/' = false)
    (hmiss : w.fs.contains (childPath (precompiledRootDir w pkgName) platformDir) = false)
    (hrm : w.removeOk = true) (hmk : w.ensureDirOk = true) :
    versionDirs (precompiledRootDir w pkgName)
        (precompiledHeaderArgs w pkgName stdArg).fs = [platformDir] ∧
      ∀ (w2 : World) (p s : Str),
        (versionDirs (precompiledRootDir w2 p) w2.fs).length ≤ 1 →
        (versionDirs (precompiledRootDir w2 p) (precompiledHeaderArgs w2 p s).fs).length
          ≤ 1 := by
  constructor
  · unfold precompiledHeaderArgs
    rw [hdir]
    dsimp only
    simp only [hmiss, Bool.false_eq_true, if_false, hrm]
    have hrm2 : ¬(true = false) := by simp
    rw [if_neg hrm2]
    have hmk2 : ¬(w.ensureDirOk = false) := by simp [hmk]
    rw [if_neg hmk2]
    rw [versionDirs_pchBuild]
    have hnc : (fsRemoveTree (precompiledRootDir w pkgName) w.fs).contains
        (childPath (precompiledRootDir w pkgName) platformDir) = false := by
      cases hc : (fsRemoveTree (precompiledRootDir w pkgName) w.fs).contains
          (childPath (precompiledRootDir w pkgName) platformDir)
      · rfl
      · exfalso
        have hm := contains_iff_mem.mp hc
        rw [fsRemoveTree, List.mem_filter] at hm
        have := hm.2
        rw [underOrEq_childPath] at this
        simp at this
    rw [addPath, if_neg (by rw [hnc]; simp)]
    rw [versionDirs_cons, immChild_childPath _ _ hslash]
    simp only [if_true, drop_childPath, versionDirs_removeTree]
  · intro w2 p s hlen
    unfold precompiledHeaderArgs
    cases hd2 : w2.clangPCHPath with
    | none => exact hlen
    | some v =>
        dsimp only
        by_cases hc : w2.fs.contains (childPath (precompiledRootDir w2 p) v) = true
        · simp only [hc, if_true]
          rw [versionDirs_pchBuild]
          exact hlen
        · have hc2 : w2.fs.contains (childPath (precompiledRootDir w2 p) v) = false :=
            Bool.not_eq_true _ ▸ hc
          simp only [hc2, Bool.false_eq_true, if_false]
          by_cases hr : w2.removeOk = false
          · rw [if_pos hr]
            exact hlen
          · rw [if_neg hr]
            by_cases he : w2.ensureDirOk = false
            · rw [if_pos he]
              rw [versionDirs_removeTree]
              simp
            · rw [if_neg he, versionDirs_pchBuild, addPath]
              split
              · rw [versionDirs_removeTree]
                simp
              · rw [versionDirs_cons]
                split
                · rw [versionDirs_removeTree]
                  simp
                · rw [versionDirs_removeTree]
                  simp

/-- Witness for C6: a populated `v1` artifact tree is wiped entirely when
`v2` is requested — afterwards `v2` is the only retained version
directory. -/
theorem c6_witness :
    versionDirs (precompiledRootDir wC6 "Rcpp".data) wC6.fs = ["v1".data] ∧
      versionDirs (precompiledRootDir wC6 "Rcpp".data)
        (precompiledHeaderArgs wC6 "Rcpp".data []).fs = ["v2".data] :=
  ⟨by decide,
    (c6_pch_version_eviction wC6 "Rcpp".data [] "v2".data rfl (by decide) (by decide)
      rfl rfl).1⟩

/-!
## C2 — precompiled-header save failure (code bug)
-/

/-- C2 (code bug): with the artifact missing, a successful libclang parse
and a failing `saveTranslationUnit`, `precompiledHeaderArgs` still returns
`[-include-pch, artifactPath]` although the artifact does not exist at
return time — the save error is logged but, unlike the parse error, does
not return the empty list as the documentation of the resolution flow
requires (a parse failure does return the empty list). -/
theorem c2_save_failure_still_returns_flags :
    (precompiledHeaderArgs wC2 "Rcpp".data "-std=c++11".data).args
        = ["-include-pch".data, c2PchPath] ∧
      (precompiledHeaderArgs wC2 "Rcpp".data "-std=c++11".data).fs.contains c2PchPath
        = false ∧
      wC2.fs.contains c2PchPath = false ∧
      (precompiledHeaderArgs wC2b "Rcpp".data "-std=c++11".data).args = [] := by
  refine ⟨by decide, by decide, by decide, by decide⟩

end RCompDB
